import Mathlib

/-!
Shallow embedding of `src/sqlite_binding.cpp` (SQLiteBinding, a thin Godot
module wrapping SQLite3): the value codec (`bind_args` encode direction,
`fetch_row` decode direction), the statement lifecycle of the four query
operations, and the connection handle (`open`/`close`).

The external engine (SQLite3) is modelled by explicit oracles: a
`PrepareResult` stands for what `sqlite3_prepare_v2` does on the given query
text, a `StmtModel` carries the engine behaviour of the prepared statement
(placeholder count, per-position bind result codes, the sequence of rows the
step loop yields and how it terminates), and an `OpenOutcome` carries what
`sqlite3_open_v2` reports and writes through its out-parameter.  Every
operation additionally returns the list of engine calls it performed
(`Event`), so that resource-safety claims (finalize called exactly once, no
engine call while closed, binding stops at the first failure) are statable.
-/

/-- Godot `Variant` restricted to the tags `bind_args` dispatches on
(`sqlite_binding.cpp` lines 50-75): `NIL`, `INT` (int64_t in Godot),
`FLOAT` (a 64-bit double, carried here as its bit pattern, since the
binding only ever passes it through), `STRING`, `PACKED_BYTE_ARRAY`;
`other tag` stands for any other `Variant::Type`, which the codec
rejects. -/
inductive Variant where
  | nil : Variant
  | int : Int → Variant
  | float : Nat → Variant
  | string : String → Variant
  | packedByteArray : List Nat → Variant
  | other : Nat → Variant
deriving DecidableEq, Repr

/-- A native column value as the engine reports it to `fetch_row`
(`sqlite_binding.cpp` lines 94-118): the stored value together with its
runtime-reported type.  `integer` holds the engine's int64 storage;
`unsupported t` stands for any reported type code outside
{SQLITE_INTEGER, SQLITE_FLOAT, SQLITE_TEXT, SQLITE_BLOB, SQLITE_NULL}. -/
inductive ColVal where
  | integer : Int → ColVal
  | float : Nat → ColVal
  | text : String → ColVal
  | blob : List Nat → ColVal
  | null : ColVal
  | unsupported : Nat → ColVal
deriving DecidableEq, Repr

/-- Truncation of a signed integer to 32 bits, two's complement: the effect
of `static_cast<int>` on Godot's int64 `Variant` (bind direction, line 64)
and of `sqlite3_column_int` on the engine's int64 storage (fetch
direction, line 97). -/
def toInt32 (i : Int) : Int :=
  (i + 2147483648) % 4294967296 - 2147483648

/-- A result column: name (as `sqlite3_column_name` reports it) and value. -/
abbrev Col : Type := String × ColVal

/-- A fetched row: the Godot `Dictionary` built by `fetch_row`, modelled as
an ordered key-value list with Godot's insertion semantics (`dictSet`). -/
abbrev Dict : Type := List (String × Variant)

/-- Godot `Dictionary` assignment `result[name] = v`: overwrite in place if
the key exists, otherwise append at the end. -/
def dictSet (d : Dict) (k : String) (v : Variant) : Dict :=
  match d with
  | [] => [(k, v)]
  | (k', v') :: rest =>
    if k' = k then (k, v) :: rest else (k', v') :: dictSet rest k v

/-- Godot `Dictionary` lookup by key (first, and with `dictSet` only,
occurrence). -/
def dictGet? (d : Dict) (k : String) : Option Variant :=
  match d with
  | [] => none
  | (k', v) :: rest => if k' = k then some v else dictGet? rest k

/-- Decoding of one supported non-NULL column value into a `Variant`, as the
four value-producing cases of the switch in `fetch_row` (lines 96-113):
`sqlite3_column_int` truncates the stored int64 to 32 bits, the other three
are byte-for-byte copies. -/
def decodeVal : ColVal → Variant
  | ColVal.integer i => Variant.int (toInt32 i)
  | ColVal.float b => Variant.float b
  | ColVal.text s => Variant.string s
  | ColVal.blob bs => Variant.packedByteArray bs
  | ColVal.null => Variant.nil
  | ColVal.unsupported t => Variant.other t

/-- True exactly on column values whose reported type is outside the five
supported codes (the `default` case of `fetch_row`, line 116). -/
def isUnsupCol : ColVal → Bool
  | ColVal.unsupported _ => true
  | _ => false

/-- True exactly on NULL-typed column values (line 114). -/
def isNullCol : ColVal → Bool
  | ColVal.null => true
  | _ => false

/-- The column loop of `fetch_row` (lines 92-120): NULL columns are skipped
(`break` with no assignment, lines 114-115), an unsupported column type
abandons the accumulated dictionary and returns a fresh empty one
(`return {}`, line 118), every other column is stored under its name. -/
def fetchRowGo : List Col → Dict → Dict
  | [], acc => acc
  | (_, ColVal.null) :: rest, acc => fetchRowGo rest acc
  | (_, ColVal.unsupported _) :: _, _ => []
  | (n, v) :: rest, acc => fetchRowGo rest (dictSet acc n (decodeVal v))

/-- `fetch_row` (lines 89-122): builds the `Dictionary` for the row the
statement is positioned on. -/
def fetch_row (cols : List Col) : Dict :=
  fetchRowGo cols []

/-- An engine call performed by an operation, in order.  `bindCalled i`
records a `sqlite3_bind_*` call for the loop index `i` (the source binds at
native position `i + 1`, lines 57-70); unsupported-tag arguments are
rejected before any engine call, so they produce no event (lines 72-74). -/
inductive Event where
  | prepareCalled : Event
  | bindCalled : Nat → Event
  | stepCalled : Event
  | finalizeCalled : Event
deriving DecidableEq, Repr

/-- How the step loop of a statement terminates once its rows are
exhausted: `SQLITE_DONE`, or any other non-row result code `c`
(the `default` case of the switch at lines 208-210). -/
inductive Terminator where
  | done : Terminator
  | err : Int → Terminator
deriving DecidableEq, Repr

/-- Engine-side behaviour of one prepared statement: its placeholder count
(`sqlite3_bind_parameter_count`), the result code the engine returns for
the bind call at loop index `i` (`0` = `SQLITE_OK`), the rows successive
`sqlite3_step` calls yield (`SQLITE_ROW` each), and how the step sequence
terminates after them. -/
structure StmtModel where
  paramCount : Nat
  bindRC : Nat → Int
  rows : List (List Col)
  fin : Terminator

/-- Outcome of `sqlite3_prepare_v2` on the given connection and query text:
failure (statement out-parameter stays null, line 38) or a prepared
statement with the given engine behaviour. -/
inductive PrepareResult where
  | fail : PrepareResult
  | ok : StmtModel → PrepareResult

/-- One iteration of the argument loop of `bind_args` (lines 50-75): a
supported tag reaches the engine and yields the engine's result code; an
unsupported tag is rejected with no engine call (`none`). -/
def bindStep (stmt : StmtModel) (a : Variant) (i : Nat) : Option Int :=
  match a with
  | Variant.other _ => none
  | _ => some (stmt.bindRC i)

/-- The argument loop of `bind_args` (lines 50-85), with its engine-call
trace: an unsupported tag returns false with no bind call; an engine bind
failure returns false right after the failing call; otherwise the loop
continues. -/
def bindLoop (stmt : StmtModel) : List Variant → Nat → Bool × List Event
  | [], _ => (true, [])
  | a :: rest, i =>
    match bindStep stmt a i with
    | none => (false, [])
    | some rc =>
      if rc = 0 then
        let r := bindLoop stmt rest (i + 1)
        (r.1, Event.bindCalled i :: r.2)
      else (false, [Event.bindCalled i])

/-- `bind_args` (lines 42-87): fails up front when the argument count
differs from the placeholder count (lines 44-48, no bind attempted),
otherwise runs the bind loop over the arguments in order. -/
def bind_args (stmt : StmtModel) (args : List Variant) : Bool × List Event :=
  if stmt.paramCount = args.length then bindLoop stmt args 0
  else (false, [])

/-- The loop index of the first argument the engine rejects or whose tag is
unsupported, if any: the position at which `bind_args` stops. -/
def firstBindFail (stmt : StmtModel) : List Variant → Nat → Option Nat
  | [], _ => none
  | a :: rest, i =>
    if bindStep stmt a i = some 0 then firstBindFail stmt rest (i + 1)
    else some i

/-- The step loop of `query_fetch_rows_with_args` (lines 197-212) together
with its engine-call trace: each `SQLITE_ROW` materializes a row via
`fetch_row` and appends it; `SQLITE_DONE` leaves the loop, after which the
statement is finalized (line 213) and the array returned; any other step
result returns a fresh empty array immediately — with no finalize call
(lines 208-210). -/
def fetchLoop : List (List Col) → Terminator → List Dict → List Dict × List Event
  | r :: rest, fin, acc =>
    let res := fetchLoop rest fin (acc ++ [fetch_row r])
    (res.1, Event.stepCalled :: res.2)
  | [], Terminator.done, acc => (acc, [Event.stepCalled, Event.finalizeCalled])
  | [], Terminator.err _, _ => ([], [Event.stepCalled])

/-- A native database handle (abstract, identified by a number). -/
abbrev DB : Type := Nat

/-- `SQLiteBinding::query_with_args` (lines 170-182), over the connection
state `db` (`db_ctx`), the query text, and the engine oracle for that text.
Returns the boolean result, the connection state on return (the source
never writes `db_ctx` here), and the engine-call trace.  `prepare`
(lines 34-40) returns null with no engine call when `db_ctx` is null; on a
prepare failure there is no statement and nothing to finalize; on a bind
failure the statement is finalized (lines 175-178); otherwise a single
`sqlite3_step` is performed, its result discarded, the statement finalized
and true returned (lines 179-181). -/
def query_with_args (db : Option DB) (q : String) (pr : PrepareResult)
    (args : List Variant) : Bool × Option DB × List Event :=
  match db with
  | none => (false, none, [])
  | some d =>
    match pr with
    | PrepareResult.fail => (false, some d, [Event.prepareCalled])
    | PrepareResult.ok stmt =>
      let b := bind_args stmt args
      if b.1 then
        (true, some d,
          Event.prepareCalled :: (b.2 ++ [Event.stepCalled, Event.finalizeCalled]))
      else
        (false, some d, Event.prepareCalled :: (b.2 ++ [Event.finalizeCalled]))

/-- `SQLiteBinding::query` (lines 166-168): delegates to `query_with_args`
with an empty argument array. -/
def query (db : Option DB) (q : String) (pr : PrepareResult) :
    Bool × Option DB × List Event :=
  query_with_args db q pr []

/-- `SQLiteBinding::query_fetch_rows_with_args` (lines 188-215): prepare
(empty array on failure), bind (finalize then empty array on failure,
lines 193-196), then the step loop (`fetchLoop`). -/
def query_fetch_rows_with_args (db : Option DB) (q : String)
    (pr : PrepareResult) (args : List Variant) :
    List Dict × Option DB × List Event :=
  match db with
  | none => ([], none, [])
  | some d =>
    match pr with
    | PrepareResult.fail => ([], some d, [Event.prepareCalled])
    | PrepareResult.ok stmt =>
      let b := bind_args stmt args
      if b.1 then
        let res := fetchLoop stmt.rows stmt.fin []
        (res.1, some d, Event.prepareCalled :: (b.2 ++ res.2))
      else ([], some d, Event.prepareCalled :: (b.2 ++ [Event.finalizeCalled]))

/-- `SQLiteBinding::query_fetch_rows` (lines 184-186): delegates to
`query_fetch_rows_with_args` with an empty argument array. -/
def query_fetch_rows (db : Option DB) (q : String) (pr : PrepareResult) :
    List Dict × Option DB × List Event :=
  query_fetch_rows_with_args db q pr []

/-- Godot `String::strip_edges`: removes leading and trailing characters
with code point at most 32 (whitespace and non-printables). -/
def stripEdges (s : String) : String :=
  String.mk
    (((s.data.dropWhile (fun c => c.toNat ≤ 32)).reverse.dropWhile
      (fun c => c.toNat ≤ 32)).reverse)

/-- What `sqlite3_open_v2` reports and writes through its `sqlite3**`
out-parameter.  Per the engine's documented contract, a connection handle
is generally written even on failure (and must then be closed by the
caller); `handle` is whatever the engine wrote into `db_ctx`. -/
structure OpenOutcome where
  rc : Int
  handle : Option DB

/-- `SQLiteBinding::open` (lines 140-151), over the current `db_ctx`, the
path, and the engine oracle.  Returns the boolean result, the `db_ctx`
value on return, and whether the engine was called.  An empty or
whitespace-only path fails before any engine call (lines 141-143); path
globalization is external and absorbed into the oracle.  The engine call
writes `db_ctx` through the out-parameter in both the success and the
failure branch — the source never resets it on failure (lines 145-149). -/
def openDB (db : Option DB) (path : String) (eng : OpenOutcome) :
    Bool × Option DB × Bool :=
  if (stripEdges path).length = 0 then (false, db, false)
  else if eng.rc = 0 then (true, eng.handle, true)
  else (false, eng.handle, true)

/-- `SQLiteBinding::close` (lines 153-164), over `db_ctx` and the engine's
`sqlite3_close` result code: fails with no engine call when already null
(lines 154-157), fails leaving `db_ctx` set when the engine rejects the
close (lines 158-161), and resets `db_ctx` to null on success.  Returns
the boolean result, the `db_ctx` value on return, and whether the engine
was called. -/
def close (db : Option DB) (closeRC : Int) : Bool × Option DB × Bool :=
  match db with
  | none => (false, none, false)
  | some d =>
    if closeRC = 0 then (true, none, true) else (false, some d, true)

/-- The value the engine stores for one supported bound argument: the
encode direction of the value codec (`bind_args`, lines 50-75, plus the
engine's storage contract).  `INT` goes through `static_cast<int>`
(line 64) and is stored as that 32-bit value; blob and text are copied
(`SQLITE_TRANSIENT`); an unsupported tag is rejected (`none`). -/
def bindStore : Variant → Option ColVal
  | Variant.packedByteArray b => some (ColVal.blob b)
  | Variant.float b => some (ColVal.float b)
  | Variant.int i => some (ColVal.integer (toInt32 i))
  | Variant.nil => some ColVal.null
  | Variant.string s => some (ColVal.text s)
  | Variant.other _ => none

/-- The decode direction of the value codec for one column (`fetch_row`,
lines 94-118), as an optional value: NULL columns produce no value (the
key is omitted, lines 114-115) and unsupported types produce no value (the
row fetch aborts, lines 116-118). -/
def columnDecode : ColVal → Option Variant
  | ColVal.null => none
  | ColVal.unsupported _ => none
  | v => some (decodeVal v)

/-- Binding a value as the sole parameter of a single-column round-trip
query and fetching it back: encode via `bindStore`, decode via
`columnDecode`. -/
def roundTrip (v : Variant) : Option Variant :=
  (bindStore v).bind columnDecode

/-- The round-trip precondition the code actually guarantees: float, text
and blob values always, integer values exactly when they fit in a signed
32-bit integer. -/
def rtOK : Variant → Bool
  | Variant.int i => decide (-2147483648 ≤ i ∧ i < 2147483648)
  | Variant.float _ => true
  | Variant.string _ => true
  | Variant.packedByteArray _ => true
  | Variant.nil => false
  | Variant.other _ => false

/-- Number of events in a trace satisfying `p`. -/
def countE (p : Event → Bool) (tr : List Event) : Nat :=
  (tr.filter p).length

/-- Recognizer for `finalizeCalled`. -/
def isFinalizeE : Event → Bool
  | Event.finalizeCalled => true
  | _ => false

/-- Recognizer for `stepCalled`. -/
def isStepE : Event → Bool
  | Event.stepCalled => true
  | _ => false

theorem countE_append (p : Event → Bool) (l₁ l₂ : List Event) :
    countE p (l₁ ++ l₂) = countE p l₁ + countE p l₂ := by
  simp [countE, List.filter_append]

theorem countE_eq_zero (p : Event → Bool) (tr : List Event)
    (h : ∀ e ∈ tr, p e = false) : countE p tr = 0 := by
  have hf : tr.filter p = [] := by
    rw [List.filter_eq_nil_iff]
    intro a ha
    simp [h a ha]
  simp [countE, hf]

theorem bindLoop_events (stmt : StmtModel) :
    ∀ (args : List Variant) (i : Nat),
      ∀ e ∈ (bindLoop stmt args i).2, ∃ k, e = Event.bindCalled k := by
  intro args
  induction args with
  | nil => intro i e he; simp [bindLoop] at he
  | cons a rest ih =>
    intro i e he
    cases hb : bindStep stmt a i with
    | none => simp [bindLoop, hb] at he
    | some rc =>
      by_cases hrc : rc = 0
      · subst hrc
        simp only [bindLoop, hb] at he
        simp at he
        rcases he with h | h
        · exact ⟨i, h⟩
        · exact ih (i + 1) e h
      · simp [bindLoop, hb, hrc] at he
        exact ⟨i, he⟩

theorem bind_args_events (stmt : StmtModel) (args : List Variant) :
    ∀ e ∈ (bind_args stmt args).2, ∃ k, e = Event.bindCalled k := by
  intro e he
  by_cases h : stmt.paramCount = args.length
  · rw [bind_args, if_pos h] at he
    exact bindLoop_events stmt args 0 e he
  · rw [bind_args, if_neg h] at he
    simp at he

theorem countE_bind_args_finalize (stmt : StmtModel) (args : List Variant) :
    countE isFinalizeE (bind_args stmt args).2 = 0 := by
  apply countE_eq_zero
  intro e he
  obtain ⟨k, rfl⟩ := bind_args_events stmt args e he
  rfl

theorem countE_bind_args_step (stmt : StmtModel) (args : List Variant) :
    countE isStepE (bind_args stmt args).2 = 0 := by
  apply countE_eq_zero
  intro e he
  obtain ⟨k, rfl⟩ := bind_args_events stmt args e he
  rfl

theorem firstBindFail_ge (stmt : StmtModel) :
    ∀ (args : List Variant) (i j : Nat),
      firstBindFail stmt args i = some j → i ≤ j := by
  intro args
  induction args with
  | nil => intro i j h; simp [firstBindFail] at h
  | cons a rest ih =>
    intro i j h
    by_cases hb : bindStep stmt a i = some 0
    · rw [firstBindFail, if_pos hb] at h
      exact Nat.le_of_succ_le (ih (i + 1) j h)
    · rw [firstBindFail, if_neg hb] at h
      simp at h
      omega

theorem bindLoop_le_firstFail (stmt : StmtModel) :
    ∀ (args : List Variant) (i j k : Nat),
      firstBindFail stmt args i = some j →
      Event.bindCalled k ∈ (bindLoop stmt args i).2 → k ≤ j := by
  intro args
  induction args with
  | nil => intro i j k _ hm; simp [bindLoop] at hm
  | cons a rest ih =>
    intro i j k hf hm
    cases hb : bindStep stmt a i with
    | none => simp [bindLoop, hb] at hm
    | some rc =>
      by_cases hrc : rc = 0
      · subst hrc
        simp only [bindLoop, hb] at hm
        simp at hm
        rw [firstBindFail, if_pos (by simp [hb])] at hf
        have hij := firstBindFail_ge stmt rest (i + 1) j hf
        rcases hm with h | h
        · omega
        · exact ih (i + 1) j k hf h
      · have hne : ¬bindStep stmt a i = some 0 := by simp [hb, hrc]
        rw [firstBindFail, if_neg hne] at hf
        simp at hf
        simp [bindLoop, hb, hrc] at hm
        omega

theorem fetchLoop_done_fst :
    ∀ (rows : List (List Col)) (acc : List Dict),
      (fetchLoop rows Terminator.done acc).1 = acc ++ rows.map fetch_row := by
  intro rows
  induction rows with
  | nil => intro acc; simp [fetchLoop]
  | cons r rest ih =>
    intro acc
    simp [fetchLoop, ih]

theorem fetchLoop_err_fst :
    ∀ (rows : List (List Col)) (c : Int) (acc : List Dict),
      (fetchLoop rows (Terminator.err c) acc).1 = [] := by
  intro rows
  induction rows with
  | nil => intro c acc; simp [fetchLoop]
  | cons r rest ih =>
    intro c acc
    simp [fetchLoop, ih]

theorem fetchRowGo_unsup :
    ∀ (cols : List Col) (acc : Dict),
      (cols.any fun c => isUnsupCol c.2) = true → fetchRowGo cols acc = [] := by
  intro cols
  induction cols with
  | nil => intro acc h; simp at h
  | cons c rest ih =>
    intro acc h
    obtain ⟨n, v⟩ := c
    cases v with
    | null =>
      simp [isUnsupCol] at h
      simp only [fetchRowGo]
      exact ih acc (by simpa using h)
    | unsupported t => simp [fetchRowGo]
    | integer i =>
      simp [isUnsupCol] at h
      simp only [fetchRowGo]
      exact ih _ (by simpa using h)
    | float b =>
      simp [isUnsupCol] at h
      simp only [fetchRowGo]
      exact ih _ (by simpa using h)
    | text s =>
      simp [isUnsupCol] at h
      simp only [fetchRowGo]
      exact ih _ (by simpa using h)
    | blob bs =>
      simp [isUnsupCol] at h
      simp only [fetchRowGo]
      exact ih _ (by simpa using h)

theorem dictSet_eq_append (d : Dict) (k : String) (v : Variant)
    (h : ∀ p ∈ d, p.1 ≠ k) : dictSet d k v = d ++ [(k, v)] := by
  induction d with
  | nil => rfl
  | cons p rest ih =>
    obtain ⟨k', v'⟩ := p
    have hk : k' ≠ k := h (k', v') (List.mem_cons_self _ _)
    simp only [dictSet, if_neg hk, List.cons_append, List.cons.injEq, true_and]
    exact ih fun p hp => h p (List.mem_cons_of_mem _ hp)

theorem dictGet?_eq_none (d : Dict) (k : String)
    (h : ∀ p ∈ d, p.1 ≠ k) : dictGet? d k = none := by
  induction d with
  | nil => rfl
  | cons p rest ih =>
    obtain ⟨k', v'⟩ := p
    have hk : k' ≠ k := h (k', v') (List.mem_cons_self _ _)
    simp only [dictGet?, if_neg hk]
    exact ih fun p hp => h p (List.mem_cons_of_mem _ hp)

theorem dictGet?_of_mem (d : Dict) (k : String) (v : Variant)
    (hm : (k, v) ∈ d) (hnd : (d.map Prod.fst).Nodup) : dictGet? d k = some v := by
  induction d with
  | nil => simp at hm
  | cons p rest ih =>
    obtain ⟨k', v'⟩ := p
    simp only [List.map_cons, List.nodup_cons] at hnd
    rcases List.mem_cons.mp hm with h | h
    · obtain ⟨h1, h2⟩ := Prod.mk.injEq .. ▸ h
      subst h1
      subst h2
      simp [dictGet?]
    · have hk : k' ≠ k := by
        intro he
        subst he
        exact hnd.1 (List.mem_map.mpr ⟨(k', v), h, rfl⟩)
      simp only [dictGet?, if_neg hk]
      exact ih h hnd.2

theorem fetchRowGo_eq :
    ∀ (cols : List Col) (acc : Dict),
      (∀ c ∈ cols, isUnsupCol c.2 = false) →
      (cols.map Prod.fst).Nodup →
      (∀ p ∈ acc, p.1 ∉ cols.map Prod.fst) →
      fetchRowGo cols acc =
        acc ++ cols.filterMap
          (fun c => if isNullCol c.2 = true then none
            else some (c.1, decodeVal c.2)) := by
  intro cols
  induction cols with
  | nil => intro acc _ _ _; simp [fetchRowGo]
  | cons c rest ih =>
    intro acc h1 h2 h3
    obtain ⟨n, v⟩ := c
    simp only [List.map_cons, List.nodup_cons] at h2
    have hrest1 : ∀ c ∈ rest, isUnsupCol c.2 = false :=
      fun c hc => h1 c (List.mem_cons_of_mem _ hc)
    have hn : ∀ p ∈ acc, p.1 ≠ n := by
      intro p hp he
      exact h3 p hp (by simp [he])
    have hacc : ∀ w : Variant, ∀ p ∈ acc ++ [(n, w)], p.1 ∉ rest.map Prod.fst := by
      intro w p hp
      rcases List.mem_append.mp hp with hq | hq
      · intro hm
        exact h3 p hq (List.mem_cons_of_mem _ hm)
      · simp at hq
        subst hq
        exact h2.1
    have hrest3 : ∀ p ∈ acc, p.1 ∉ rest.map Prod.fst :=
      fun p hp hm => h3 p hp (List.mem_cons_of_mem _ hm)
    cases v
    case null =>
      simp only [fetchRowGo]
      rw [ih acc hrest1 h2.2 hrest3]
      simp [List.filterMap_cons, isNullCol]
    case unsupported t =>
      exact absurd (h1 (n, ColVal.unsupported t) (List.mem_cons_self _ _))
        (by simp [isUnsupCol])
    all_goals
      simp only [fetchRowGo]
      rw [dictSet_eq_append acc n _ hn]
      rw [ih _ hrest1 h2.2 (hacc _)]
      simp [List.filterMap_cons, isNullCol]

theorem fetch_row_eq (cols : List Col)
    (h1 : ∀ c ∈ cols, isUnsupCol c.2 = false)
    (h2 : (cols.map Prod.fst).Nodup) :
    fetch_row cols = cols.filterMap
      (fun c => if isNullCol c.2 = true then none
        else some (c.1, decodeVal c.2)) := by
  have h := fetchRowGo_eq cols [] h1 h2 (by simp)
  simpa [fetch_row] using h

theorem fetchKeys_sublist (cols : List Col) :
    ((cols.filterMap fun c => if isNullCol c.2 = true then none
        else some (c.1, decodeVal c.2)).map Prod.fst).Sublist
      (cols.map Prod.fst) := by
  induction cols with
  | nil => simp
  | cons c rest ih =>
    by_cases h : isNullCol c.2 = true
    · simp only [List.filterMap_cons, h, if_pos, List.map_cons]
      exact ih.cons _
    · simp only [List.filterMap_cons, h, if_neg, List.map_cons]
      simp only [Bool.not_eq_true] at h
      simp [h]
      exact ih

theorem toInt32_eq_self (i : Int) (h1 : -2147483648 ≤ i)
    (h2 : i < 2147483648) : toInt32 i = i := by
  unfold toInt32
  omega

/-- C1: refuted on the code (code bug) — on the step-failure exit path of
`query_fetch_rows_with_args` (the `default` arm at lines 208-210 returns
`{}` directly), the prepared statement is never finalized.  The trace of a
run on an open connection whose first step yields the unrecognized result
code 5 (`SQLITE_BUSY`) contains a prepare call but zero finalize calls,
where the claim requires finalize to be called exactly once before control
returns on every exit path. -/
theorem c1_step_error_skips_finalize :
    countE isFinalizeE
      (query_fetch_rows_with_args (some 0) "SELECT 1"
        (PrepareResult.ok ⟨0, fun _ => 0, [], Terminator.err 5⟩) []).2.2 = 0 ∧
    Event.prepareCalled ∈
      (query_fetch_rows_with_args (some 0) "SELECT 1"
        (PrepareResult.ok ⟨0, fun _ => 0, [], Terminator.err 5⟩) []).2.2 := by
  decide

/-- C3 counterexample: with an open connection, successful prepare and
bind, and a single step yielding the unrecognized result code 1
(`SQLITE_ERROR`), `query_with_args` still returns true — the step outcome
is discarded (line 179 ignores the value of `sqlite3_step`), contradicting
the claim that a step result other than HasRow or Done is an error
surfaced to the caller rather than silent completion. -/
theorem c3_counterexample :
    (query_with_args (some 0) "DELETE FROM t"
      (PrepareResult.ok ⟨0, fun _ => 0, [], Terminator.err 1⟩) []).1 = true := by
  decide

/-- C3 (amended): for every Execute call (`query` / `query_with_args`)
that reaches the step phase (prepare and bind succeeded), exactly one step
is performed and its result is discarded: the call returns true regardless
of the step outcome, and finalize still runs exactly once (lines 179-181
of the source ignore the value returned by `sqlite3_step`). -/
theorem c3_amended_step_result_discarded
    (d : DB) (q : String) (stmt : StmtModel) (args : List Variant)
    (hb : (bind_args stmt args).1 = true) :
    (query_with_args (some d) q (PrepareResult.ok stmt) args).1 = true ∧
    countE isStepE
      (query_with_args (some d) q (PrepareResult.ok stmt) args).2.2 = 1 ∧
    countE isFinalizeE
      (query_with_args (some d) q (PrepareResult.ok stmt) args).2.2 = 1 := by
  have hs := countE_bind_args_step stmt args
  have hf := countE_bind_args_finalize stmt args
  simp only [countE] at hs hf
  refine ⟨by simp [query_with_args, hb], ?_, ?_⟩
  · simp [query_with_args, hb, countE, List.filter_cons, List.filter_append,
      isStepE, isFinalizeE, hs]
  · simp [query_with_args, hb, countE, List.filter_cons, List.filter_append,
      isStepE, isFinalizeE, hf]

/-- C3 witness: the amended theorem instantiated at a concrete open
connection, prepared statement and empty argument list. -/
theorem c3_witness :
    (query_with_args (some 0) "CREATE TABLE t (x)"
      (PrepareResult.ok ⟨0, fun _ => 0, [], Terminator.done⟩) []).1 = true ∧
    countE isStepE
      (query_with_args (some 0) "CREATE TABLE t (x)"
        (PrepareResult.ok ⟨0, fun _ => 0, [], Terminator.done⟩) []).2.2 = 1 ∧
    countE isFinalizeE
      (query_with_args (some 0) "CREATE TABLE t (x)"
        (PrepareResult.ok ⟨0, fun _ => 0, [], Terminator.done⟩) []).2.2 = 1 :=
  c3_amended_step_result_discarded 0 "CREATE TABLE t (x)"
    ⟨0, fun _ => 0, [], Terminator.done⟩ [] (by decide)

/-- C4 counterexample: the Integer round-trip is not bit-for-bit for every
value of the variant — Godot's INT is 64-bit, binding goes through
`static_cast<int>` (line 64) and fetching through `sqlite3_column_int`
(line 97), so 2^31 comes back as -2^31, a different value. -/
theorem c4_counterexample :
    roundTrip (Variant.int 2147483648) = some (Variant.int (-2147483648)) ∧
    Variant.int 2147483648 ≠ Variant.int (-2147483648) := by
  decide

/-- C4 (amended): binding a supported non-Null value as the sole parameter
of a single-column round-trip query and fetching it back yields the
original value bit-for-bit for floats (full double bit pattern), text and
blobs, and for integers exactly when they fit in a signed 32-bit integer;
wider integers are truncated by the `static_cast<int>` /
`sqlite3_column_int` pair (see the counterexample). -/
theorem c4_amended_roundtrip (v : Variant) (h : rtOK v = true) :
    roundTrip v = some v := by
  cases v with
  | nil => simp [rtOK] at h
  | other t => simp [rtOK] at h
  | int i =>
    simp only [rtOK, decide_eq_true_eq] at h
    have hi : toInt32 i = i := toInt32_eq_self i h.1 h.2
    simp [roundTrip, bindStore, columnDecode, decodeVal, hi]
  | float b => rfl
  | string s => rfl
  | packedByteArray bs => rfl

/-- C4 witness: the amended round-trip theorem applied to a concrete
in-range integer. -/
theorem c4_witness :
    rtOK (Variant.int 42) = true ∧
    roundTrip (Variant.int 42) = some (Variant.int 42) :=
  ⟨by decide, c4_amended_roundtrip (Variant.int 42) (by decide)⟩

/-- C5: the first half of the claim holds — an empty or whitespace-only
path fails before any engine call with `db_ctx` untouched — but the second
half is refuted on the code (code bug): at the concrete failing input, a
nonblank path on which the engine reports failure (result code 14,
`SQLITE_CANTOPEN`) while writing a connection handle through the
out-parameter (as the engine's documented contract says it generally
does), the failed `open` leaves `db_ctx` set to that handle — the source
never resets it on the failure branch (lines 145-149) — so the connection
does not remain Closed and a native handle is retained. -/
theorem c5_failed_open_retains_handle :
    (∀ eng : OpenOutcome, openDB none "  " eng = (false, none, false)) ∧
    openDB none "db.sqlite" ⟨14, some 7⟩ = (false, some 7, true) ∧
    (openDB none "db.sqlite" ⟨14, some 7⟩).2.1 ≠ none := by
  refine ⟨fun eng => ?_, by decide, by decide⟩
  simp only [openDB]
  rw [if_pos (by decide)]

/-- C7: for every Execute-and-fetch call whose bind succeeded and whose
step sequence ends in an unrecognized result code, the call returns the
empty sequence: every row materialized before the error is discarded (the
`return {}` at line 210 abandons the accumulated array), the failure
superseding them. -/
theorem c7_step_error_discards_rows
    (d : DB) (q : String) (stmt : StmtModel) (args : List Variant) (c : Int)
    (hb : (bind_args stmt args).1 = true)
    (hf : stmt.fin = Terminator.err c) :
    (query_fetch_rows_with_args (some d) q (PrepareResult.ok stmt) args).1 = [] := by
  simp [query_fetch_rows_with_args, hb, hf, fetchLoop_err_fst]

/-- C7 witness: a run that materializes one row and then hits a step error
returns the empty sequence. -/
theorem c7_witness :
    (query_fetch_rows_with_args (some 0) "SELECT * FROM t"
      (PrepareResult.ok ⟨0, fun _ => 0, [[("a", ColVal.integer 3)]],
        Terminator.err 5⟩) []).1 = [] :=
  c7_step_error_discards_rows 0 "SELECT * FROM t"
    ⟨0, fun _ => 0, [[("a", ColVal.integer 3)]], Terminator.err 5⟩ [] 5
    (by decide) rfl

/-- C9: every statement operation attempted while the connection is Closed
(`db_ctx` null) fails — false or the empty sequence — with an empty
engine-call trace, since `prepare` rejects the null handle before calling
the engine (line 35); `close` on a Closed connection fails without an
engine call (lines 154-157); and after a successful close the handle is
null again, so a second close fails the same way. -/
theorem c9_closed_guard :
    (∀ (q : String) (pr : PrepareResult) (args : List Variant),
      query_with_args none q pr args = (false, none, [])) ∧
    (∀ (q : String) (pr : PrepareResult),
      query none q pr = (false, none, [])) ∧
    (∀ (q : String) (pr : PrepareResult) (args : List Variant),
      query_fetch_rows_with_args none q pr args = ([], none, [])) ∧
    (∀ (q : String) (pr : PrepareResult),
      query_fetch_rows none q pr = ([], none, [])) ∧
    (∀ rc : Int, close none rc = (false, none, false)) ∧
    (∀ d : DB, (close (some d) 0).1 = true ∧ (close (some d) 0).2.1 = none ∧
      ∀ rc : Int, close (close (some d) 0).2.1 rc = (false, none, false)) := by
  refine ⟨fun q pr args => rfl, fun q pr => rfl, fun q pr args => rfl,
    fun q pr => rfl, fun rc => rfl, fun d => ⟨?_, ?_, ?_⟩⟩
  · simp [close]
  · simp [close]
  · intro rc
    simp [close]

/-- C10: for every query text (and engine oracle for it), `query` returns
exactly `query_with_args` applied to the empty argument list, and
`query_fetch_rows` returns exactly `query_fetch_rows_with_args` applied to
the empty argument list: the no-argument operations are definitionally the
with-argument operations on an empty array (lines 166-168 and 184-186). -/
theorem c10_query_delegates :
    (∀ (db : Option DB) (q : String) (pr : PrepareResult),
      query db q pr = query_with_args db q pr []) ∧
    (∀ (db : Option DB) (q : String) (pr : PrepareResult),
      query_fetch_rows db q pr = query_fetch_rows_with_args db q pr []) :=
  ⟨fun _ _ _ => rfl, fun _ _ _ => rfl⟩

/-- C2 counterexample: a fetch whose first row reports an unsupported
column type does not fail and does not stop: `fetch_row` returns a fresh
empty dictionary for that row (line 118), the loop pushes it
unconditionally (line 203) and keeps stepping, so the query returns one
record per row — here two records, the first empty — instead of no rows,
contradicting the claim that the entire fetch aborts with no result
rows. -/
theorem c2_counterexample :
    (query_fetch_rows_with_args (some 0) "SELECT a, b FROM t"
      (PrepareResult.ok ⟨0, fun _ => 0,
        [[("a", ColVal.unsupported 7)], [("b", ColVal.integer 1)]],
        Terminator.done⟩) []).1 = [[], [("b", Variant.int 1)]] ∧
    (query_fetch_rows_with_args (some 0) "SELECT a, b FROM t"
      (PrepareResult.ok ⟨0, fun _ => 0,
        [[("a", ColVal.unsupported 7)], [("b", ColVal.integer 1)]],
        Terminator.done⟩) []).1 ≠ [] := by
  decide

/-- C2 (amended): an unsupported column type aborts only the current row's
decoding: `fetch_row` discards the entries already decoded and yields an
empty record for that row, later columns of that row are not decoded, but
the fetch of the query continues — every row still produces one (possibly
empty) record and the call returns the full sequence rather than
failing. -/
theorem c2_amended_fetch_continues
    (d : DB) (q : String) (stmt : StmtModel) (args : List Variant)
    (hb : (bind_args stmt args).1 = true)
    (hd : stmt.fin = Terminator.done) :
    (query_fetch_rows_with_args (some d) q (PrepareResult.ok stmt) args).1 =
      stmt.rows.map fetch_row ∧
    ∀ cols : List Col, (cols.any fun c => isUnsupCol c.2) = true →
      fetch_row cols = [] := by
  constructor
  · simp [query_fetch_rows_with_args, hb, hd, fetchLoop_done_fst]
  · intro cols h
    exact fetchRowGo_unsup cols [] h

/-- C2 witness: the amended theorem instantiated at a two-row result whose
first row has an unsupported column: both rows come back, the first as an
empty record. -/
theorem c2_witness :
    (query_fetch_rows_with_args (some 0) "SELECT x FROM t"
      (PrepareResult.ok ⟨0, fun _ => 0,
        [[("a", ColVal.unsupported 9)], [("b", ColVal.text "v")]],
        Terminator.done⟩) []).1 = [[], [("b", Variant.string "v")]] :=
  ((c2_amended_fetch_continues 0 "SELECT x FROM t"
    ⟨0, fun _ => 0,
      [[("a", ColVal.unsupported 9)], [("b", ColVal.text "v")]],
      Terminator.done⟩ [] (by decide) rfl).1).trans (by decide)

/-- C6: whenever `bind_args` fails — argument count mismatch, unsupported
argument tag, or engine bind rejection — the operation returns failure
(false, or the empty sequence), the statement is finalized exactly once
before returning (lines 175-178 and 193-196), the connection state is
untouched (still the same open handle), and no bind call is attempted at
any position after the first failing one. -/
theorem c6_bind_failure_safety
    (d : DB) (q : String) (stmt : StmtModel) (args : List Variant)
    (hb : (bind_args stmt args).1 = false) :
    (query_with_args (some d) q (PrepareResult.ok stmt) args).1 = false ∧
    (query_with_args (some d) q (PrepareResult.ok stmt) args).2.1 = some d ∧
    countE isFinalizeE
      (query_with_args (some d) q (PrepareResult.ok stmt) args).2.2 = 1 ∧
    (query_fetch_rows_with_args (some d) q (PrepareResult.ok stmt) args).1 = [] ∧
    (query_fetch_rows_with_args (some d) q (PrepareResult.ok stmt) args).2.1 =
      some d ∧
    countE isFinalizeE
      (query_fetch_rows_with_args (some d) q (PrepareResult.ok stmt) args).2.2
      = 1 ∧
    (∀ i j : Nat, Event.bindCalled i ∈ (bind_args stmt args).2 →
      firstBindFail stmt args 0 = some j → i ≤ j) := by
  have hf := countE_bind_args_finalize stmt args
  simp only [countE] at hf
  refine ⟨by simp [query_with_args, hb], by simp [query_with_args, hb], ?_,
    by simp [query_fetch_rows_with_args, hb],
    by simp [query_fetch_rows_with_args, hb], ?_, ?_⟩
  · simp [query_with_args, hb, countE, List.filter_cons, List.filter_append,
      isFinalizeE, hf]
  · simp [query_fetch_rows_with_args, hb, countE, List.filter_cons,
      List.filter_append, isFinalizeE, hf]
  · intro i j hm hfail
    by_cases hpc : stmt.paramCount = args.length
    · rw [bind_args, if_pos hpc] at hm
      exact bindLoop_le_firstFail stmt args 0 j i hfail hm
    · rw [bind_args, if_neg hpc] at hm
      simp at hm

/-- C6 witness: the theorem instantiated at an argument-count mismatch
(one placeholder, empty argument list) on a concrete open connection. -/
theorem c6_witness :
    (query_with_args (some 0) "INSERT INTO t VALUES (?)"
      (PrepareResult.ok ⟨1, fun _ => 0, [], Terminator.done⟩) []).1 = false ∧
    (query_with_args (some 0) "INSERT INTO t VALUES (?)"
      (PrepareResult.ok ⟨1, fun _ => 0, [], Terminator.done⟩) []).2.1 =
      some 0 ∧
    countE isFinalizeE
      (query_with_args (some 0) "INSERT INTO t VALUES (?)"
        (PrepareResult.ok ⟨1, fun _ => 0, [], Terminator.done⟩) []).2.2 = 1 ∧
    (query_fetch_rows_with_args (some 0) "INSERT INTO t VALUES (?)"
      (PrepareResult.ok ⟨1, fun _ => 0, [], Terminator.done⟩) []).1 = [] ∧
    (query_fetch_rows_with_args (some 0) "INSERT INTO t VALUES (?)"
      (PrepareResult.ok ⟨1, fun _ => 0, [], Terminator.done⟩) []).2.1 =
      some 0 ∧
    countE isFinalizeE
      (query_fetch_rows_with_args (some 0) "INSERT INTO t VALUES (?)"
        (PrepareResult.ok ⟨1, fun _ => 0, [], Terminator.done⟩) []).2.2 = 1 ∧
    (∀ i j : Nat, Event.bindCalled i ∈
        (bind_args ⟨1, fun _ => 0, [], Terminator.done⟩ []).2 →
      firstBindFail ⟨1, fun _ => 0, [], Terminator.done⟩ [] 0 = some j →
      i ≤ j) :=
  c6_bind_failure_safety 0 "INSERT INTO t VALUES (?)"
    ⟨1, fun _ => 0, [], Terminator.done⟩ [] (by decide)

/-- C8: in every fetched row all of whose columns have supported reported
types and whose column names are distinct, a NULL-typed column produces no
entry in the resulting record — its key is absent from the dictionary —
while every non-NULL column is present under its name with its decoded
value (lines 96-115). -/
theorem c8_null_columns_omitted
    (cols : List Col)
    (h1 : ∀ c ∈ cols, isUnsupCol c.2 = false)
    (h2 : (cols.map Prod.fst).Nodup) :
    (∀ c ∈ cols, c.2 = ColVal.null →
      dictGet? (fetch_row cols) c.1 = none) ∧
    (∀ c ∈ cols, c.2 ≠ ColVal.null →
      dictGet? (fetch_row cols) c.1 = some (decodeVal c.2)) := by
  rw [fetch_row_eq cols h1 h2]
  constructor
  · intro c hc hnull
    apply dictGet?_eq_none
    intro p hp
    obtain ⟨c', hc', hpe⟩ := List.mem_filterMap.mp hp
    by_cases hn' : isNullCol c'.2 = true
    · rw [if_pos hn'] at hpe
      exact absurd hpe (by simp)
    · rw [if_neg hn'] at hpe
      injection hpe with hpair
      have hp1 : p.1 = c'.1 := by rw [← hpair]
      intro hkey
      have hcc : c' = c :=
        List.inj_on_of_nodup_map h2 hc' hc (by rw [← hp1]; exact hkey)
      apply hn'
      rw [hcc, hnull]
      rfl
  · intro c hc hnn
    have hnull : isNullCol c.2 = false := by
      cases hcv : c.2
      case null => exact absurd hcv hnn
      all_goals rfl
    apply dictGet?_of_mem
    · exact List.mem_filterMap.mpr ⟨c, hc, by rw [if_neg (by simp [hnull])]⟩
    · exact List.Nodup.sublist (fetchKeys_sublist cols) h2

/-- C8 witness: a concrete three-column row — integer, NULL, text — whose
record lacks the NULL column's key and holds the decoded values of the
other two. -/
theorem c8_witness :
    dictGet? (fetch_row
      [("a", ColVal.integer 5), ("b", ColVal.null), ("c", ColVal.text "x")])
      "b" = none ∧
    dictGet? (fetch_row
      [("a", ColVal.integer 5), ("b", ColVal.null), ("c", ColVal.text "x")])
      "a" = some (Variant.int 5) ∧
    dictGet? (fetch_row
      [("a", ColVal.integer 5), ("b", ColVal.null), ("c", ColVal.text "x")])
      "c" = some (Variant.string "x") := by
  have h := c8_null_columns_omitted
    [("a", ColVal.integer 5), ("b", ColVal.null), ("c", ColVal.text "x")]
    (by decide) (by decide)
  refine ⟨h.1 ("b", ColVal.null) (by decide) rfl, ?_, ?_⟩
  · exact (h.2 ("a", ColVal.integer 5) (by decide) (by decide)).trans (by decide)
  · exact (h.2 ("c", ColVal.text "x") (by decide) (by decide)).trans (by decide)
